import Mathlib

/-!
Verification of the lexicalization core of pypolibox (src/lexicalization.py and
src/lexicalize_messageblocks.py) against its natural-language specification.

The tree node type ("diamond") and its mutation primitives live in the module
hlds, which is an external collaborator of this core (spec section 6) and is not
part of the given sources.  They are modelled here from the spec contract:
construct(mode, category, lexicalAnchor, children); mutate-mode; append-child
(with optional mode); prepend-child; insert-child; key lookup and deletion by a
numbered-mode key pattern (NN__MODE).  The in-source lookup of the key 02__NUM
on the abstract-author tree, whose NUM feature is the third child, fixes the
numbering convention of the keys to zero-based, zero-padded child indices.

Python functions that can raise AssertionError (or IndexError and similar) are
embedded as Except String valued functions; a Python function that can fall off
its end and return None is embedded with an Option result.  The combinators
gen_enumeration, gen_komma_enumeration and gen_nested_given_names return the
empty Python list [] as their designated empty marker; that marker is embedded
as Option.none.
-/

set_option maxHeartbeats 1000000

/-- The recursive tree node of the deep-syntactic structures: a mode label
(syntactic slot), a category label (nom), a lexical anchor (prop) and an
ordered list of child nodes.  Modelled from the spec (section 3 and 6), since
the hlds module is not part of the given sources. -/
inductive Diamond : Type where
  | mk : (mode : String) → (nom : String) → (prop : String) →
      (children : List Diamond) → Diamond

def Diamond.mode : Diamond → String
  | .mk m _ _ _ => m

def Diamond.nom : Diamond → String
  | .mk _ n _ _ => n

def Diamond.prop : Diamond → String
  | .mk _ _ p _ => p

def Diamond.children : Diamond → List Diamond
  | .mk _ _ _ cs => cs

/-- Modelled from the spec: hlds.create_diamond, the construct operation of the
tree collaborator (spec section 6). -/
def create_diamond (mode nom prop : String) (children : List Diamond) : Diamond :=
  Diamond.mk mode nom prop children

/-- Modelled from the spec: hlds mutate-mode (Diamond.change_mode), destructive
relabeling of a node, embedded functionally. -/
def change_mode (d : Diamond) (mode : String) : Diamond :=
  Diamond.mk mode d.nom d.prop d.children

/-- Modelled from the spec: hlds append-child with an optional new mode for the
appended child. -/
def append_subdiamond (d child : Diamond) (mode : Option String) : Diamond :=
  let c := match mode with
    | some m => change_mode child m
    | none => child
  Diamond.mk d.mode d.nom d.prop (d.children ++ [c])

/-- Modelled from the spec: hlds prepend-child with an optional new mode. -/
def prepend_subdiamond (d child : Diamond) (mode : Option String) : Diamond :=
  let c := match mode with
    | some m => change_mode child m
    | none => child
  Diamond.mk d.mode d.nom d.prop (c :: d.children)

/-- Modelled from the spec: hlds insert-child at a child position. -/
def insert_subdiamond (d : Diamond) (index : Nat) (child : Diamond) : Diamond :=
  Diamond.mk d.mode d.nom d.prop (d.children.take index ++ child :: d.children.drop index)

/-- Zero-padded rendering of a child index, two digits wide. -/
def zfill2 (n : Nat) : String :=
  if n < 10 then "0" ++ toString n else toString n

/-- Modelled from the spec: the numbered key under which a child is addressable,
index plus the child mode (the NN__MODE pattern of spec section 6).  The index
is zero based so that the in-source lookup of 02__NUM finds the NUM child of the
abstract-author tree, which is its third child. -/
def child_key (i : Nat) (c : Diamond) : String :=
  zfill2 i ++ "__" ++ c.mode

/-- Modelled from the spec: key lookup on a node, scanning the numbered child
keys. -/
def get_child_by_key (d : Diamond) (k : String) : Option Diamond :=
  (d.children.enum.find? (fun ic => child_key ic.1 ic.2 = k)).map (fun ic => ic.2)

/-- The article stripping step of lexicalize_titles: every top level key that
matches the pattern digits __ART is popped.  All modes that arise in this
program and start with ART are exactly ART, so this is a filter on ART children. -/
def remove_article_children (d : Diamond) : Diamond :=
  Diamond.mk d.mode d.nom d.prop (d.children.filter (fun c => ¬ c.mode = "ART"))

mutual

/-- Modelled from the spec: hlds.add_mode_suffix, mode-suffix propagation (spec
section 4.2): every node whose mode equals the target is renumbered with a
one-based occurrence suffix, in depth-first order. -/
def add_mode_suffix_aux (target : String) (counter : Nat) : Diamond → Diamond × Nat
  | .mk m n p cs =>
    let mc : String × Nat :=
      if m = target then (m ++ toString (counter + 1), counter + 1) else (m, counter)
    let csc := add_mode_suffix_aux_list target mc.2 cs
    (.mk mc.1 n p csc.1, csc.2)

def add_mode_suffix_aux_list (target : String) (counter : Nat) :
    List Diamond → List Diamond × Nat
  | [] => ([], counter)
  | c :: cs =>
    let rc := add_mode_suffix_aux target counter c
    let rcs := add_mode_suffix_aux_list target rc.2 cs
    (rc.1 :: rcs.1, rcs.2)

end

/-- Modelled from the spec: hlds.add_mode_suffix entry point. -/
def add_mode_suffix (d : Diamond) (mode : String) : Diamond :=
  (add_mode_suffix_aux mode 0 d).1

/-- Modelled from the spec: util.ensure_unicode; strings are already unicode
here, so this is the identity. -/
def ensure_unicode (s : String) : String := s

/-- Python str.replace with a single blank pattern: every blank becomes an
underscore. -/
def replace_blanks (s : String) : String :=
  String.mk (s.data.map (fun c => if c = ' ' then '_' else c))

/-- Helper for py_split: accumulates the current token while walking the
character list, closing a token at every blank. -/
def py_split_aux (cur : List Char) : List Char → List String
  | [] => if cur = [] then [] else [String.mk cur.reverse]
  | c :: rest =>
    if c = ' ' then
      if cur = [] then py_split_aux [] rest
      else String.mk cur.reverse :: py_split_aux [] rest
    else py_split_aux (c :: cur) rest

/-- Python str.split without a separator argument: the maximal non-blank
tokens of the string, with no empty tokens. -/
def py_split (s : String) : List String := py_split_aux [] s.data

/-- Helper for sql_array_to_list: collects the bracket-delimited tokens from
the character list. -/
def sql_array_aux (cur : List Char) : List Char → List String
  | [] => if cur = [] then [] else [String.mk cur.reverse]
  | c :: rest =>
    if c = '[' then sql_array_aux [] rest
    else if c = ']' then
      if cur = [] then sql_array_aux [] rest
      else String.mk cur.reverse :: sql_array_aux [] rest
    else sql_array_aux (c :: cur) rest

/-- Modelled from the spec: util.sql_array_to_list decodes a packed multi-value
string such as [Ada][Scheme] into the ordered list of its tokens (spec
section 6). -/
def sql_array_to_list (s : String) : List String := sql_array_aux [] s.data

/-! ## Atomic generators (src/lexicalization.py) -/

/-- gen_art: generates a Diamond describing an article. -/
def gen_art (article_type : String) : Diamond :=
  create_diamond "ART" "sem-obj" article_type []

/-- gen_gender: generates a Diamond representing masculine, feminine or neuter. -/
def gen_gender (genus : String) : Diamond :=
  create_diamond "GEN" "" genus []

/-- gen_num on a string argument: the final assertion of gen_num, numerus must
be sing or plur. -/
def gen_num_str (numerus : String) : Except String Diamond :=
  if numerus = "sing" ∨ numerus = "plur" then
    .ok (create_diamond "NUM" "" numerus [])
  else .error "assertion failed: numerus must be sing or plur"

/-- gen_num on an integer argument: Python gen_num first asserts the count is
positive, then maps 1 to sing and any larger count to plur. -/
def gen_num_int (numerus : Int) : Except String Diamond :=
  if numerus > 0 then
    gen_num_str (if numerus = 1 then "sing" else "plur")
  else .error "count has to be >= 1"

/-- gen_mod: generates a Diamond representing a modifier. -/
def gen_mod (modifier modifier_type : String) : Diamond :=
  create_diamond "MOD" modifier_type modifier []

/-- gen_prep: generates a Diamond representing a preposition. -/
def gen_prep (preposition preposition_type : String) : Diamond :=
  create_diamond "PRÄP" preposition_type preposition []

/-- gen_pers: generates a Diamond representing a grammatical person. -/
def gen_pers (person : Int) : Diamond :=
  create_diamond "PERS" "" (toString person ++ "te") []

/-- gen_tempus: generates a Diamond representing a tense form. -/
def gen_tempus (tense : String) : Diamond :=
  create_diamond "TEMP:tempus" "" tense []

/-- gen_komp: adjective modality, one of pos, komp, super. -/
def gen_komp (modality : String) : Except String Diamond :=
  if modality = "pos" ∨ modality = "komp" ∨ modality = "super" then
    .ok (create_diamond "KOMP" "" modality [])
  else .error "assertion failed: modality must be pos, komp or super"

/-- gen_pronoun: generates any kind of pronoun; asserts person is 1, 2 or 3,
gender is masc, fem or neut, numerus is sing or plur. -/
def gen_pronoun (person : Int) (pronoun_type gender numerus mode : String) :
    Except String Diamond :=
  if person = 1 ∨ person = 2 ∨ person = 3 then
    if gender = "masc" ∨ gender = "fem" ∨ gender = "neut" then
      match gen_num_str numerus with
      | .error e => .error e
      | .ok num =>
        let pers := create_diamond "PERS" "" (toString person ++ "te") []
        let pro := create_diamond "PRO" "" pronoun_type []
        let gen := gen_gender gender
        .ok (create_diamond mode "sem-obj" "" [pers, pro, gen, num])
    else .error "assertion failed: gender must be masc, fem or neut"
  else .error "assertion failed: person must be 1, 2 or 3"

/-- gen_personal_pronoun: coerces the gender to fem when the count is above one
or the gender string is empty, maps the count to sing exactly at one, and
delegates to gen_pronoun. -/
def gen_personal_pronoun (count : Int) (gender : String) (person : Int)
    (mode : String) : Except String Diamond :=
  let gender := if count > 1 ∨ gender = "" then "fem" else gender
  let numerus := if count = 1 then "sing" else "plur"
  gen_pronoun person "perspro" gender numerus mode

/-- gen_title: converts a book title string into its diamond, wrapping it into
opening and closing quotation nodes and replacing blanks by underscores. -/
def gen_title (book_title : String) : Diamond :=
  let book_title := replace_blanks (ensure_unicode book_title)
  let opening_bracket := create_diamond "99" "anführungöffnen" "anföffn" []
  let closing_bracket := create_diamond "66" "anführungschließen" "anfschl" []
  create_diamond "NP" "buchtitel" book_title [opening_bracket, closing_bracket]

/-- gen_abstract_title: das Buch / die Bücher, for a number of books. -/
def gen_abstract_title (number_of_books : Int) : Except String Diamond :=
  match gen_num_int number_of_books with
  | .error e => .error e
  | .ok num => .ok (create_diamond "" "artefaktum" "Buch" [num, gen_art "def"])

/-- gen_abstract_autor: der Autor / die Autoren, for a number of authors. -/
def gen_abstract_autor (num_of_authors : Int) : Except String Diamond :=
  match gen_num_int num_of_authors with
  | .error e => .error e
  | .ok num =>
    .ok (create_diamond "" "bel-phys-körper" "Autor" [gen_art "def", gen_gender "mask", num])

/-- __split_name: naively splits a name string into given names and a last
name; the last whitespace-delimited token is the last name.  An empty token
list raises IndexError in Python. -/
def __split_name (name : String) : Except String (List String × String) :=
  let name_components := py_split name
  match name_components.getLast? with
  | some last_name => .ok (name_components.dropLast, last_name)
  | none => .error "IndexError: empty name"

/-- gen_lastname_only: a Diamond realizing only the last name of an author. -/
def gen_lastname_only (name : String) : Except String Diamond :=
  match __split_name name with
  | .error e => .error e
  | .ok gl => .ok (create_diamond "NP" "nachname" gl.2 [])

/-! ## Structural combinators (src/lexicalization.py) -/

/-- gen_komma_enumeration: combines a list of diamonds into a nested diamond
expressing comma separated items.  The empty list is returned unchanged as the
empty marker (none); one item is passed through; two items become one binary
komma coordination; more items nest the combination of all but the last item
with the last item. -/
def gen_komma_enumeration (diamonds_list : List Diamond) (mode : String) :
    Option Diamond :=
  match diamonds_list with
  | [] => none
  | [d] => some d
  | [d1, d2] => some (create_diamond mode "konjunktion" "komma" [d1, d2])
  | d1 :: d2 :: d3 :: rest =>
    match gen_komma_enumeration (d1 :: d2 :: d3 :: rest).dropLast mode with
    | some nested_komma_enum =>
      some (create_diamond mode "konjunktion" "komma"
        [nested_komma_enum, (d1 :: d2 :: d3 :: rest).getLast (by simp)])
    | none => none
termination_by diamonds_list.length
decreasing_by simp [List.length_dropLast]

/-- gen_enumeration: like gen_komma_enumeration but the top level join is the
conjunction und; for more than two items the first items are combined by the
comma variant and joined with the final item by und. -/
def gen_enumeration (diamonds_list : List Diamond) (mode : String) :
    Option Diamond :=
  match diamonds_list with
  | [] => none
  | [d] => some d
  | [d1, d2] => some (create_diamond mode "konjunktion" "und" [d1, d2])
  | d1 :: d2 :: d3 :: rest =>
    match gen_komma_enumeration (d1 :: d2 :: d3 :: rest).dropLast mode with
    | some nested_komma_enum =>
      some (create_diamond mode "konjunktion" "und"
        [nested_komma_enum, (d1 :: d2 :: d3 :: rest).getLast (by simp)])
    | none => none

/-- gen_nested_given_names: given names become a nested structure where the
last given name is the outermost node and the first given name the innermost;
the empty list returns the empty marker (none). -/
def gen_nested_given_names (given_names : List String) : Option Diamond :=
  match given_names with
  | [] => none
  | g :: gs =>
    match gen_nested_given_names (g :: gs).dropLast with
    | none =>
      some (create_diamond "N1" "vorname" ((g :: gs).getLast (by simp)) [])
    | some nested_diamond =>
      some (create_diamond "N1" "vorname" ((g :: gs).getLast (by simp)) [nested_diamond])
termination_by given_names.length
decreasing_by simp [List.length_dropLast]

/-- gen_complete_name: nested diamond for a full name, given names nested below
the last name. -/
def gen_complete_name (name : String) : Except String Diamond :=
  match __split_name name with
  | .error e => .error e
  | .ok gl =>
    match gen_nested_given_names gl.1 with
    | some given_names_diamond =>
      .ok (create_diamond "NP" "nachname" gl.2 [given_names_diamond])
    | none => .ok (create_diamond "NP" "nachname" gl.2 [])

/-- gen_abstract_keywords: das Thema / die Themen. -/
def gen_abstract_keywords (num_of_keywords : Int) : Except String Diamond :=
  match gen_num_int num_of_keywords with
  | .error e => .error e
  | .ok num => .ok (create_diamond "" "art" "Thema" [num, gen_art "def"])

/-- The local helper gen_keyword inside gen_keywords: one keyword diamond,
blanks replaced by underscores. -/
def gen_keyword (keyword mode : String) : Except String Diamond :=
  let fixed_keyword := replace_blanks keyword
  match gen_num_str "sing" with
  | .error e => .error e
  | .ok num => .ok (create_diamond mode "sorte" fixed_keyword [num])

/-- gen_keywords: keyword list as a nested diamond with the abstract keyword
description prepended; the singleton case realizes the bare keyword, more
keywords delegate to gen_enumeration.  An empty keyword list fails inside
gen_abstract_keywords already (count must be positive). -/
def gen_keywords (keywords : List String) (mode : String) : Except String Diamond :=
  match gen_abstract_keywords (keywords.length : Int) with
  | .error e => .error e
  | .ok keyword_description =>
    let result_diamond : Except String Diamond :=
      match keywords with
      | [] => .error "NameError: result_diamond"
      | [kw] => gen_keyword kw mode
      | _ :: _ :: _ =>
        match keywords.mapM (fun kw => gen_keyword kw mode) with
        | .error e => .error e
        | .ok keyword_diamonds =>
          match gen_enumeration keyword_diamonds mode with
          | some d => .ok d
          | none => .error "unreachable: enumeration of two or more keywords"
    match result_diamond with
    | .error e => .error e
    | .ok rd =>
      .ok (add_mode_suffix (append_subdiamond keyword_description rd (some "NOMERG")) mode)

/-- gen_plang: die Programmiersprache X / die Programmiersprachen X und Y; the
packed language string is decoded, each language becomes a singular noun leaf,
the leaves are joined by gen_enumeration, relabeled NOMERG and mode-suffixed. -/
def gen_plang (plang : String) (mode : String) : Except String Diamond :=
  if plang = "" then .error "at least one programming language should be defined"
  else
    let proglangs := sql_array_to_list plang
    match gen_num_int (proglangs.length : Int) with
    | .error e => .error e
    | .ok num =>
      let art := gen_art "def"
      match proglangs.mapM (fun proglang =>
          (match gen_num_str "sing" with
           | .error e => .error e
           | .ok n => .ok (create_diamond "N" "sorte" proglang [n]) :
            Except String Diamond)) with
      | .error e => .error e
      | .ok proglang_diamonds =>
        match gen_enumeration proglang_diamonds "N" with
        | some proglang_enum =>
          let proglang_enum := add_mode_suffix (change_mode proglang_enum "NOMERG") "N"
          .ok (create_diamond mode "art" "Programmiersprache" [num, art, proglang_enum])
        | none => .error "AttributeError: change_mode on the empty enumeration"

/-- __sing_or_plur: does the lexicalized authors diamond describe one author or
several?  A conjunction anchor means several; otherwise the 02__NUM child
decides; otherwise one. -/
def __sing_or_plur (lexicalized_authors : Diamond) : String :=
  if lexicalized_authors.prop = "und" then "plur"
  else
    match get_child_by_key lexicalized_authors "02__NUM" with
    | some num => num.prop
    | none => "sing"

/-! ## Entity lexicalizers (src/lexicalization.py) -/

/-- lexicalize_authors: abstract realizes der Autor / die Autoren, lastnames
joins the authors last names by gen_enumeration, complete joins the full
names; afterwards NP and N mode suffixes are propagated.  An empty author list
produces the empty marker in gen_enumeration on which add_mode_suffix fails. -/
def lexicalize_authors (authors : List String) (realize : String) :
    Except String Diamond :=
  if realize = "abstract" ∨ realize = "lastnames" ∨ realize = "complete" then
    let authors_diamond : Except String Diamond :=
      if realize = "abstract" then gen_abstract_autor (authors.length : Int)
      else if realize = "lastnames" then
        match authors.mapM gen_lastname_only with
        | .error e => .error e
        | .ok lastnames =>
          match gen_enumeration lastnames "NP" with
          | some d => .ok d
          | none => .error "AttributeError: add_mode_suffix on the empty enumeration"
      else
        match authors.mapM gen_complete_name with
        | .error e => .error e
        | .ok complete_names =>
          match gen_enumeration complete_names "NP" with
          | some d => .ok d
          | none => .error "AttributeError: add_mode_suffix on the empty enumeration"
    match authors_diamond with
    | .error e => .error e
    | .ok d => .ok (add_mode_suffix (add_mode_suffix d "NP") "N")
  else .error "choose 1 of these author realizations: abstract, lastnames, complete"

/-- The common clause tail of lexicalize_codeexamples: the patiens diamond and
the final clause, built from the plural count marker and an optional modifier. -/
def lexicalize_codeexamples (examples : Int) (lexicalized_title : Diamond)
    (lexicalized_plang : Option Diamond) (lexeme : String) : Except String Diamond :=
  if lexeme = "beinhalten" ∨ lexeme = "enthalten" then
    let temp := gen_tempus "präs"
    let agens := change_mode lexicalized_title "AGENS"
    let modifier : Option Diamond :=
      if examples = 0 then some (gen_art "quantkein")
      else
        match lexicalized_plang with
        | some plang =>
          some (change_mode
            (insert_subdiamond plang 1 (gen_prep "in" "zusammenhang")) "ATTRIB")
        | none => none
    match gen_num_str "plur" with
    | .error e => .error e
    | .ok plur_num =>
      let patiens :=
        match modifier with
        | some m => create_diamond "PATIENS" "abstraktum" "Code-Beispiel" [plur_num, m]
        | none => create_diamond "PATIENS" "abstraktum" "Code-Beispiel" [plur_num]
      .ok (create_diamond "" "durativ" lexeme [temp, agens, patiens])
  else .error "assertion failed: lexeme must be beinhalten or enthalten"

/-- lexicalize_exercises: the exercises clause; the count one case carries only
the plural count marker, every other count gets the quantkein article. -/
def lexicalize_exercises (exercises : Int) (lexicalized_title : Diamond)
    (lexeme : String) : Except String Diamond :=
  if lexeme = "beinhalten" ∨ lexeme = "enthalten" then
    let tempus := gen_tempus "präs"
    let agens := change_mode lexicalized_title "AGENS"
    match gen_num_str "plur" with
    | .error e => .error e
    | .ok plur_num =>
      let patiens :=
        if exercises = 1 then
          create_diamond "PATIENS" "abstraktum" "Übung" [plur_num]
        else
          create_diamond "PATIENS" "abstraktum" "Übung" [plur_num, gen_art "quantkein"]
      .ok (create_diamond "" "durativ" lexeme [tempus, agens, patiens])
  else .error "assertion failed: lexeme must be beinhalten or enthalten"

/-- The lexeme dispatch tail of lexicalize_keywords, shared by the title and
the authors agens choice. -/
def keywords_clause (temp agens patiens : Diamond) (lexeme : String) :
    Except String (Option Diamond) :=
  if lexeme = "behandeln" ∨ lexeme = "beschreiben" then
    .ok (some (create_diamond "" "handlung" lexeme [temp, agens, patiens]))
  else if lexeme = "eingehen" then
    let patiens := insert_subdiamond patiens 1 (gen_prep "auf" "zusammenhang")
    .ok (some (create_diamond "" "infinitum" "ein-X-trans"
      [create_diamond "AUX" "partverbstamm" "ein-gehen" [temp, agens, patiens]]))
  else if lexeme = "aufgreifen" then
    .ok (some (create_diamond "" "infinitum" "auf-X-trans"
      [create_diamond "AUX" "partverbstamm" "auf-greifen" [temp, agens, patiens]]))
  else .ok none

/-- lexicalize_keywords: the patiens is the abstract or complete keyword
phrase; then at least one of title and authors must be present, the title is
preferred as the agens; the lexeme selects the clause shape, an unknown lexeme
falls off the end of the Python function and yields None. -/
def lexicalize_keywords (keywords : List String)
    (lexicalized_title lexicalized_authors : Option Diamond)
    (realize lexeme : String) : Except String (Option Diamond) :=
  if realize = "abstract" ∨ realize = "complete" then
    let patiens0 : Except String Diamond :=
      if realize = "abstract" then gen_abstract_keywords (keywords.length : Int)
      else gen_keywords keywords "N"
    match patiens0 with
    | .error e => .error e
    | .ok p =>
      let patiens := change_mode p "PATIENS"
      let temp := gen_tempus "präs"
      match lexicalized_title, lexicalized_authors with
      | none, none =>
        .error "keywords need a lexicalized title or authors to be realized"
      | some t, _ => keywords_clause temp (change_mode t "AGENS") patiens lexeme
      | none, some a => keywords_clause temp (change_mode a "AGENS") patiens lexeme
  else .error "choose 1 of these keyword realizations: abstract, complete"

/-- lexicalize_pages: three lexical renderings of the page count selected by
the lexeme (umfang, umfassen, länge), random drawing one of the three; any
other lexeme falls off the end of the Python function and yields None.  The
title argument is relabeled to AGENS before the dispatch. -/
def lexicalize_pages (pages : String) (lexicalized_title : Diamond)
    (lexeme : String) (pick : List String → String) :
    Except String (Option Diamond) :=
  let tempus := gen_tempus "präs"
  let title := change_mode lexicalized_title "AGENS"
  match gen_num_str "plur" with
  | .error e => .error e
  | .ok pages_num =>
    let pages_mod := gen_mod pages "kardinal"
    let pages_nom := "artefaktum"
    let pages_prop := "Seite"
    let lexeme := if lexeme = "random" then pick ["umfang", "umfassen", "länge"] else lexeme
    if lexeme = "umfang" then
      let preposition := gen_prep "von" "zugehörigkeit"
      let attrib := create_diamond "ATTRIB" pages_nom pages_prop
        [pages_num, preposition, pages_mod]
      match gen_num_str "sing" with
      | .error e => .error e
      | .ok patiens_num =>
        let art := gen_art "indef"
        let patiens := create_diamond "PATIENS" "abstraktum" "Umfang"
          [patiens_num, art, attrib]
        .ok (some (create_diamond "" "durativ" "haben" [tempus, title, patiens]))
    else if lexeme = "umfassen" then
      let patiens := create_diamond "PATIENS" pages_nom pages_prop [pages_num, pages_mod]
      .ok (some (create_diamond "" "handlung" "umfassen" [tempus, title, patiens]))
    else if lexeme = "länge" then
      let title := change_mode title "SUBJ"
      match gen_komp "pos" with
      | .error e => .error e
      | .ok komp =>
        let komp_mod := create_diamond "MOD" "eigenschaft" "lang" [komp]
        let prkompl := create_diamond "PRKOMPL" pages_nom pages_prop
          [pages_num, pages_mod, komp_mod]
        .ok (some (create_diamond "" "prädikation" "sein-kop" [tempus, title, prkompl]))
    else .ok none

/-- lexicalize_plang: embedded realizes the bare noun phrase; complete needs a
title or an author argument (asserted up front), prefers the title as agens and
wraps the phrase into a verwenden clause; any other realize value falls off the
end of the Python function and yields None. -/
def lexicalize_plang (plang : String)
    (lexicalized_titles lexicalized_authors : Option Diamond) (realize : String) :
    Except String (Option Diamond) :=
  if lexicalized_titles.isSome ∨ lexicalized_authors.isSome ∨ realize = "embedded" then
    if realize = "embedded" then
      match gen_plang plang "N" with
      | .error e => .error e
      | .ok d => .ok (some d)
    else if realize = "complete" then
      let temp := gen_tempus "präs"
      match lexicalized_titles, lexicalized_authors with
      | some t, _ =>
        (match gen_plang plang "PATIENS" with
         | .error e => .error e
         | .ok patiens =>
           .ok (some (create_diamond "" "handlung" "verwenden"
             [temp, change_mode t "AGENS", patiens])))
      | none, some a =>
        (match gen_plang plang "PATIENS" with
         | .error e => .error e
         | .ok patiens =>
           .ok (some (create_diamond "" "handlung" "verwenden"
             [temp, change_mode a "AGENS", patiens])))
      | none, none => .error "NameError: agens"
    else .ok none
  else
    .error "requires either a lexicalized title, a lexicalized set of authors or realize parameter embedded"

/-- lexicalize_titles: realizes the titles abstractly, as a pronoun (forbidden
together with an author argument), or concretely as an enumeration of quoted
titles; an optional author argument is attached possessively (requiring one
author, and stripping the title article afterwards) or prepositionally.
Random choices are resolved through the pick oracle. -/
def lexicalize_titles (book_titles : List String)
    (lexicalized_authors : Option Diamond) (realize : String)
    (authors_realize : Option String) (pick : List String → String) :
    Except String Diamond :=
  if realize = "abstract" ∨ realize = "complete" ∨ realize = "pronoun" ∨
      realize = "random" then
    if authors_realize = none ∨ authors_realize = some "possessive" ∨
        authors_realize = some "preposition" ∨ authors_realize = some "random" then
      let num_of_titles : Int := (book_titles.length : Int)
      let realize :=
        if realize = "random" then
          match authors_realize with
          | some _ => pick ["abstract", "complete"]
          | none => pick ["abstract", "complete", "pronoun"]
        else realize
      let title_diamond : Except String Diamond :=
        if realize = "abstract" then gen_abstract_title num_of_titles
        else if realize = "pronoun" then
          match lexicalized_authors with
          | some _ => .error "cant realize title as pronoun with an author"
          | none => gen_personal_pronoun num_of_titles "neut" 3 ""
        else if realize = "complete" then
          match gen_enumeration (book_titles.map gen_title) "NP" with
          | some titles_enum => .ok (add_mode_suffix titles_enum "NP")
          | none => .error "AttributeError: add_mode_suffix on the empty enumeration"
        else .error "NameError: title_diamond"
      match title_diamond with
      | .error e => .error e
      | .ok title_diamond =>
        match lexicalized_authors with
        | none => .ok title_diamond
        | some authors =>
          let authors_realize :=
            if authors_realize = some "random" then
              if __sing_or_plur authors = "sing" then
                some (pick ["possessive", "preposition"])
              else some "preposition"
            else authors_realize
          if authors_realize = some "possessive" then
            if __sing_or_plur authors = "sing" then
              .ok (remove_article_children
                (append_subdiamond title_diamond authors (some "ASS")))
            else .error "cant realize possesive form with more than one author"
          else if authors_realize = some "preposition" then
            .ok (append_subdiamond title_diamond
              (prepend_subdiamond authors (gen_prep "von" "zugehörigkeit") none)
              (some "ATTRIB"))
          else .ok title_diamond
    else .error "assertion failed: authors_realize not recognized"
  else .error "assertion failed: realize not recognized"

/-! ## Analysis helpers used by the claim statements -/

/-- A node produced by the coordination combinators: the konjunktion category
with the und or komma anchor. -/
def isCoordNode (d : Diamond) : Bool :=
  d.nom == "konjunktion" && (d.prop == "und" || d.prop == "komma")

mutual

/-- The ordered item leaves of a coordination tree: coordination nodes are
flattened, every other node is an item. -/
def enum_leaves : Diamond → List Diamond
  | .mk m n p cs =>
    if isCoordNode (.mk m n p cs) = true then enum_leaves_list cs
    else [.mk m n p cs]

def enum_leaves_list : List Diamond → List Diamond
  | [] => []
  | c :: cs => enum_leaves c ++ enum_leaves_list cs

end

/-- Leaves of an optional coordination tree; the empty marker has no leaves. -/
def leavesOpt : Option Diamond → List Diamond
  | none => []
  | some d => enum_leaves d

/-- Nesting depth along the first-child chain; the given-name trees have at
most one child per node, so this is their total nesting depth. -/
def nested_depth : Diamond → Nat
  | .mk _ _ _ [] => 1
  | .mk _ _ _ (c :: _) => 1 + nested_depth c

mutual

/-- Does a tree contain the negative-quantifier article node anywhere (mode
ART with the anchor quantkein)? -/
def has_quantkein : Diamond → Bool
  | .mk m _ p cs => (m == "ART" && p == "quantkein") || has_quantkein_list cs

def has_quantkein_list : List Diamond → Bool
  | [] => false
  | c :: cs => has_quantkein c || has_quantkein_list cs

end

/-- The patiens child of a finished clause: the third child of the clause
root ([tempus, agens, patiens]). -/
def patiens_of (e : Except String Diamond) : Option Diamond :=
  match e with
  | .ok r => r.children.get? 2
  | .error _ => none

/-- Does the patient phrase of a finished clause contain the quantkein
article? -/
def patiens_has_quantkein (e : Except String Diamond) : Bool :=
  match patiens_of e with
  | some p => has_quantkein p
  | none => false

/-- Is the result a with no assertion failure computed value? -/
def opt_result_ok (e : Except String (Option Diamond)) : Bool :=
  match e with
  | .ok _ => true
  | .error _ => false

/-- A deterministic stand-in for random.choice in the concrete witnesses: the
first candidate. -/
def pick_head (l : List String) : String := l.headD ""

/-- A concrete abstract book tree used as fixture in witnesses. -/
def buchD : Diamond := create_diamond "" "artefaktum" "Buch" []

/-- Concrete last-name fixtures. -/
def kayD : Diamond := create_diamond "NP" "nachname" "Kay" []

def manningD : Diamond := create_diamond "NP" "nachname" "Manning" []

def allenD : Diamond := create_diamond "NP" "nachname" "Allen" []

def zaunD : Diamond := create_diamond "NP" "nachname" "Zaun" []

/-- The single-author diamond that lexicalize_authors builds from the one name
Ada und in lastnames mode: the surname is the literal string und. -/
def und_author : Diamond := create_diamond "NP1" "nachname" "und" []

/-- The two-author lastnames diamond for Alan Kay and John Hopcroft, after
mode-suffix propagation. -/
def kay_hopcroft : Diamond :=
  create_diamond "NP1" "konjunktion" "und"
    [create_diamond "NP2" "nachname" "Kay" [],
     create_diamond "NP3" "nachname" "Hopcroft" []]

/-- The single-author lastnames diamond for Alan Kay, after mode-suffix
propagation. -/
def kay_author : Diamond := create_diamond "NP1" "nachname" "Kay" []

/-! ## Basic lemmas about the combinators -/

@[simp] theorem Diamond.mode_mk (m n p : String) (cs : List Diamond) :
    (Diamond.mk m n p cs).mode = m := rfl

@[simp] theorem Diamond.nom_mk (m n p : String) (cs : List Diamond) :
    (Diamond.mk m n p cs).nom = n := rfl

@[simp] theorem Diamond.prop_mk (m n p : String) (cs : List Diamond) :
    (Diamond.mk m n p cs).prop = p := rfl

@[simp] theorem Diamond.children_mk (m n p : String) (cs : List Diamond) :
    (Diamond.mk m n p cs).children = cs := rfl

@[simp] theorem create_diamond_eq (m n p : String) (cs : List Diamond) :
    create_diamond m n p cs = Diamond.mk m n p cs := rfl

theorem gke_shape (l : List Diamond) (mode : String) (h2 : 2 ≤ l.length) :
    ∃ k, gen_komma_enumeration l mode = some k ∧
      k.mode = mode ∧ k.nom = "konjunktion" ∧ k.prop = "komma" := by
  match l with
  | [] => simp at h2
  | [d] => simp at h2
  | [d1, d2] =>
    refine ⟨create_diamond mode "konjunktion" "komma" [d1, d2], ?_, rfl, rfl, rfl⟩
    simp [gen_komma_enumeration]
  | d1 :: d2 :: d3 :: rest =>
    obtain ⟨k, hk, hm, hn, hp⟩ :=
      gke_shape (d1 :: d2 :: d3 :: rest).dropLast mode (by simp)
    refine ⟨create_diamond mode "konjunktion" "komma"
      [k, (d1 :: d2 :: d3 :: rest).getLast (by simp)], ?_, rfl, rfl, rfl⟩
    simp only [gen_komma_enumeration]
    rw [hk]
termination_by l.length
decreasing_by simp [List.length_dropLast]

theorem ge_shape (l : List Diamond) (mode : String) (h2 : 2 ≤ l.length) :
    ∃ k, gen_enumeration l mode = some k ∧
      k.mode = mode ∧ k.nom = "konjunktion" ∧ k.prop = "und" := by
  match l with
  | [] => simp at h2
  | [d] => simp at h2
  | [d1, d2] =>
    refine ⟨create_diamond mode "konjunktion" "und" [d1, d2], ?_, rfl, rfl, rfl⟩
    simp [gen_enumeration]
  | d1 :: d2 :: d3 :: rest =>
    obtain ⟨k, hk, hm, hn, hp⟩ :=
      gke_shape (d1 :: d2 :: d3 :: rest).dropLast mode (by simp)
    refine ⟨create_diamond mode "konjunktion" "und"
      [k, (d1 :: d2 :: d3 :: rest).getLast (by simp)], ?_, rfl, rfl, rfl⟩
    simp only [gen_enumeration]
    rw [hk]

theorem ge_some (l : List Diamond) (mode : String) (h : l ≠ []) :
    ∃ k, gen_enumeration l mode = some k := by
  match l with
  | [d] => exact ⟨d, by simp [gen_enumeration]⟩
  | d1 :: d2 :: rest =>
    obtain ⟨k, hk, -, -, -⟩ := ge_shape (d1 :: d2 :: rest) mode (by simp)
    exact ⟨k, hk⟩

theorem enum_leaves_of_not_coord (d : Diamond) (h : isCoordNode d = false) :
    enum_leaves d = [d] := by
  cases d with
  | mk m n p cs => simp [enum_leaves, h]

theorem enum_leaves_list_pair (a b : Diamond) :
    enum_leaves_list [a, b] = enum_leaves a ++ enum_leaves b := by
  simp [enum_leaves_list]

theorem gke_leaves (l : List Diamond) (mode : String)
    (h : ∀ d ∈ l, isCoordNode d = false) :
    leavesOpt (gen_komma_enumeration l mode) = l := by
  match l with
  | [] => simp [gen_komma_enumeration, leavesOpt]
  | [d] =>
    simp [gen_komma_enumeration, leavesOpt]
    exact enum_leaves_of_not_coord d (h d (by simp))
  | [d1, d2] =>
    simp only [gen_komma_enumeration, leavesOpt]
    rw [show enum_leaves (create_diamond mode "konjunktion" "komma" [d1, d2]) =
      enum_leaves_list [d1, d2] by simp [enum_leaves, create_diamond, isCoordNode]]
    rw [enum_leaves_list_pair,
      enum_leaves_of_not_coord d1 (h d1 (by simp)),
      enum_leaves_of_not_coord d2 (h d2 (by simp))]
    simp [enum_leaves_list]
  | d1 :: d2 :: d3 :: rest =>
    have hsub : ∀ d ∈ (d1 :: d2 :: d3 :: rest).dropLast, isCoordNode d = false :=
      fun d hd => h d ((List.dropLast_sublist _).subset hd)
    have ih := gke_leaves (d1 :: d2 :: d3 :: rest).dropLast mode hsub
    obtain ⟨k, hk, -, -, -⟩ := gke_shape (d1 :: d2 :: d3 :: rest).dropLast mode (by simp)
    rw [hk] at ih
    simp only [leavesOpt] at ih
    simp only [gen_komma_enumeration]
    rw [hk]
    simp only [leavesOpt]
    rw [show enum_leaves (create_diamond mode "konjunktion" "komma"
        [k, (d1 :: d2 :: d3 :: rest).getLast (by simp)]) =
      enum_leaves_list [k, (d1 :: d2 :: d3 :: rest).getLast (by simp)] by
        simp [enum_leaves, create_diamond, isCoordNode]]
    rw [enum_leaves_list_pair, ih,
      enum_leaves_of_not_coord _ (h _ (List.getLast_mem _))]
    simp [enum_leaves_list]
    exact List.dropLast_append_getLast (by simp)
termination_by l.length
decreasing_by simp [List.length_dropLast]

theorem ge_leaves (l : List Diamond) (mode : String)
    (h : ∀ d ∈ l, isCoordNode d = false) :
    leavesOpt (gen_enumeration l mode) = l := by
  match l with
  | [] => simp [gen_enumeration, leavesOpt]
  | [d] =>
    simp [gen_enumeration, leavesOpt]
    exact enum_leaves_of_not_coord d (h d (by simp))
  | [d1, d2] =>
    simp only [gen_enumeration, leavesOpt]
    rw [show enum_leaves (create_diamond mode "konjunktion" "und" [d1, d2]) =
      enum_leaves_list [d1, d2] by simp [enum_leaves, isCoordNode]]
    rw [enum_leaves_list_pair,
      enum_leaves_of_not_coord d1 (h d1 (by simp)),
      enum_leaves_of_not_coord d2 (h d2 (by simp))]
    simp [enum_leaves_list]
  | d1 :: d2 :: d3 :: rest =>
    have hsub : ∀ d ∈ (d1 :: d2 :: d3 :: rest).dropLast, isCoordNode d = false :=
      fun d hd => h d ((List.dropLast_sublist _).subset hd)
    have ih := gke_leaves (d1 :: d2 :: d3 :: rest).dropLast mode hsub
    obtain ⟨k, hk, -, -, -⟩ := gke_shape (d1 :: d2 :: d3 :: rest).dropLast mode (by simp)
    rw [hk] at ih
    simp only [leavesOpt] at ih
    simp only [gen_enumeration]
    rw [hk]
    simp only [leavesOpt]
    rw [show enum_leaves (create_diamond mode "konjunktion" "und"
        [k, (d1 :: d2 :: d3 :: rest).getLast (by simp)]) =
      enum_leaves_list [k, (d1 :: d2 :: d3 :: rest).getLast (by simp)] by
        simp [enum_leaves, isCoordNode]]
    rw [enum_leaves_list_pair, ih,
      enum_leaves_of_not_coord _ (h _ (List.getLast_mem _))]
    simp [enum_leaves_list]
    exact List.dropLast_append_getLast (by simp)

theorem gnn_spec (gs : List String) (x : String) (hx : gs.getLast? = some x) :
    ∃ d, gen_nested_given_names gs = some d ∧ nested_depth d = gs.length ∧
      d.prop = x ∧ d.mode = "N1" ∧ d.nom = "vorname" := by
  match gs with
  | [] => simp at hx
  | [g] =>
    refine ⟨create_diamond "N1" "vorname" g [], ?_, by simp [nested_depth], ?_, rfl, rfl⟩
    · simp [gen_nested_given_names]
    · simp at hx
      simp [hx]
  | g1 :: g2 :: rest =>
    have hdl : (g1 :: g2 :: rest).dropLast.getLast? =
        some ((g1 :: g2 :: rest).dropLast.getLast (by simp)) :=
      List.getLast?_eq_getLast _ _
    obtain ⟨d, hd, hdepth, hprop, hmode, hnom⟩ :=
      gnn_spec (g1 :: g2 :: rest).dropLast ((g1 :: g2 :: rest).dropLast.getLast (by simp)) hdl
    refine ⟨create_diamond "N1" "vorname" ((g1 :: g2 :: rest).getLast (by simp)) [d],
      ?_, ?_, ?_, rfl, rfl⟩
    · simp only [gen_nested_given_names]
      rw [hd]
    · simp only [create_diamond_eq, nested_depth, hdepth]
      simp
      omega
    · simp only [create_diamond_eq, Diamond.prop_mk]
      rw [List.getLast?_eq_getLast _ (by simp)] at hx
      exact Option.some.inj hx
termination_by gs.length
decreasing_by simp [List.length_dropLast]

/-! ## Claim C1 -/

/-- C1: gen_enumeration is size-correct for every input list of item trees:
the empty list returns the empty marker, one item is returned unchanged, two
items become one binary und coordination with the items as children in order,
and more than two items become an und coordination whose first child is the
komma coordination of all but the last item (same coordination category, komma
anchor) and whose second child is the final item. -/
theorem C1_gen_enumeration_size_correct (l : List Diamond) (mode : String) :
    gen_enumeration ([] : List Diamond) mode = none ∧
    (∀ d, gen_enumeration [d] mode = some d) ∧
    (∀ d1 d2, gen_enumeration [d1, d2] mode =
      some (create_diamond mode "konjunktion" "und" [d1, d2])) ∧
    (2 < l.length →
      ∃ k x, gen_komma_enumeration l.dropLast mode = some k ∧
        k.mode = mode ∧ k.nom = "konjunktion" ∧ k.prop = "komma" ∧
        l.getLast? = some x ∧
        gen_enumeration l mode =
          some (create_diamond mode "konjunktion" "und" [k, x])) := by
  refine ⟨by simp [gen_enumeration], fun d => by simp [gen_enumeration],
    fun d1 d2 => by simp [gen_enumeration], ?_⟩
  intro hlen
  match l, hlen with
  | d1 :: d2 :: d3 :: rest, _ =>
    obtain ⟨k, hk, hm, hn, hp⟩ :=
      gke_shape (d1 :: d2 :: d3 :: rest).dropLast mode (by simp)
    refine ⟨k, (d1 :: d2 :: d3 :: rest).getLast (by simp), hk, hm, hn, hp,
      List.getLast?_eq_getLast _ _, ?_⟩
    simp only [gen_enumeration]
    rw [hk]

/-- Closed witness for C1 at a three item list. -/
theorem C1_witness :
    2 < ([kayD, manningD, allenD] : List Diamond).length ∧
    (∃ k x, gen_komma_enumeration ([kayD, manningD, allenD] : List Diamond).dropLast "NP" = some k ∧
      k.mode = "NP" ∧ k.nom = "konjunktion" ∧ k.prop = "komma" ∧
      ([kayD, manningD, allenD] : List Diamond).getLast? = some x ∧
      gen_enumeration [kayD, manningD, allenD] "NP" =
        some (create_diamond "NP" "konjunktion" "und" [k, x])) :=
  ⟨by simp,
   (C1_gen_enumeration_size_correct [kayD, manningD, allenD] "NP").2.2.2 (by simp)⟩

/-! ## Claim C6 -/

/-- C6: flattening the leaves of the tree produced by gen_enumeration, read
left to right, reproduces exactly the original input item order, for every
input list whose items are not themselves coordination nodes. -/
theorem C6_enumeration_flatten (l : List Diamond) (mode : String)
    (h : ∀ d ∈ l, isCoordNode d = false) :
    leavesOpt (gen_enumeration l mode) = l :=
  ge_leaves l mode h

/-- Closed witness for C6 at a four item list. -/
theorem C6_witness :
    (∀ d ∈ ([kayD, manningD, allenD, zaunD] : List Diamond), isCoordNode d = false) ∧
    leavesOpt (gen_enumeration [kayD, manningD, allenD, zaunD] "NP") =
      [kayD, manningD, allenD, zaunD] :=
  ⟨by decide, C6_enumeration_flatten [kayD, manningD, allenD, zaunD] "NP" (by decide)⟩

/-! ## Claim C7 -/

/-- C7: for every non-empty list of given names, gen_nested_given_names builds
a nested tree whose depth equals the number of given names and whose outermost
anchor is the last given name; the empty list yields the empty marker. -/
theorem C7_nested_given_names (gs : List String) :
    gen_nested_given_names [] = none ∧
    (∀ x, gs.getLast? = some x →
      ∃ d, gen_nested_given_names gs = some d ∧ nested_depth d = gs.length ∧
        d.prop = x ∧ d.mode = "N1" ∧ d.nom = "vorname") :=
  ⟨by simp [gen_nested_given_names], fun x hx => gnn_spec gs x hx⟩

/-- Closed witness for C7 at the given names Detlef Peter. -/
theorem C7_witness :
    (["Detlef", "Peter"] : List String).getLast? = some "Peter" ∧
    ∃ d, gen_nested_given_names ["Detlef", "Peter"] = some d ∧
      nested_depth d = 2 ∧ d.prop = "Peter" ∧ d.mode = "N1" ∧ d.nom = "vorname" :=
  ⟨rfl, (C7_nested_given_names ["Detlef", "Peter"]).2 "Peter" rfl⟩

/-! ## Support lemmas about Except, mapM and the quantkein search -/

theorem except_bind_ok {α β : Type} (a : α) (f : α → Except String β) :
    (Except.ok a >>= f : Except String β) = f a := rfl

theorem except_bind_err {α β : Type} (e : String) (f : α → Except String β) :
    (Except.error e >>= f : Except String β) = .error e := rfl

theorem except_pure_eq {α : Type} (a : α) : (pure a : Except String α) = .ok a := rfl

theorem mapM_ok_of_ok {α β : Type} (f : α → Except String β) (g : α → β)
    (hf : ∀ x, f x = .ok (g x)) (l : List α) : l.mapM f = .ok (l.map g) := by
  induction l with
  | nil => rfl
  | cons x xs ih =>
    rw [List.mapM_cons, hf x, except_bind_ok, ih, except_bind_ok, List.map_cons]
    rfl

theorem mapM_length {α β : Type} (f : α → Except String β) (l : List α) :
    ∀ ds : List β, l.mapM f = .ok ds → ds.length = l.length := by
  induction l with
  | nil =>
    intro ds h
    rw [show ([] : List α).mapM f = .ok ([] : List β) from rfl] at h
    cases h
    rfl
  | cons x xs ih =>
    intro ds h
    rw [List.mapM_cons] at h
    cases hfx : f x with
    | error e => rw [hfx, except_bind_err] at h; cases h
    | ok b =>
      rw [hfx, except_bind_ok] at h
      cases hxs : xs.mapM f with
      | error e => rw [hxs, except_bind_err] at h; cases h
      | ok bs =>
        rw [hxs, except_bind_ok, except_pure_eq] at h
        cases h
        simp [ih bs hxs]

theorem mapM_singleton {α β : Type} (f : α → Except String β) (x : α) (ds : List β)
    (h : [x].mapM f = .ok ds) : ∃ d, f x = .ok d ∧ ds = [d] := by
  rw [List.mapM_cons] at h
  cases hfx : f x with
  | error e => rw [hfx, except_bind_err] at h; cases h
  | ok b =>
    rw [hfx, except_bind_ok] at h
    rw [show ([] : List α).mapM f = .ok ([] : List β) from rfl, except_bind_ok,
      except_pure_eq] at h
    cases h
    exact ⟨b, rfl, rfl⟩

theorem hql_append (l1 l2 : List Diamond) :
    has_quantkein_list (l1 ++ l2) =
      (has_quantkein_list l1 || has_quantkein_list l2) := by
  induction l1 with
  | nil => simp [has_quantkein_list]
  | cons c cs ih => simp [has_quantkein_list, ih, Bool.or_assoc]

theorem hql_take_drop (cs : List Diamond) (i : Nat)
    (h : has_quantkein_list cs = false) :
    has_quantkein_list (cs.take i) = false ∧
      has_quantkein_list (cs.drop i) = false := by
  have happ := hql_append (cs.take i) (cs.drop i)
  rw [List.take_append_drop, h] at happ
  exact ⟨(Bool.or_eq_false_iff.mp happ.symm).1, (Bool.or_eq_false_iff.mp happ.symm).2⟩

theorem has_quantkein_modifier (p prep : Diamond) (i : Nat)
    (hp : has_quantkein p = false) (hprep : has_quantkein prep = false) :
    has_quantkein (change_mode (insert_subdiamond p i prep) "ATTRIB") = false := by
  cases p with
  | mk m n pr cs =>
    have hcs : has_quantkein_list cs = false := by
      have := hp
      rw [show has_quantkein (Diamond.mk m n pr cs) =
        ((m == "ART" && pr == "quantkein") || has_quantkein_list cs) from rfl] at this
      exact (Bool.or_eq_false_iff.mp this).2
    obtain ⟨htake, hdrop⟩ := hql_take_drop cs i hcs
    rw [show change_mode (insert_subdiamond (Diamond.mk m n pr cs) i prep) "ATTRIB" =
      Diamond.mk "ATTRIB" n pr (cs.take i ++ prep :: cs.drop i) from rfl]
    rw [show has_quantkein (Diamond.mk "ATTRIB" n pr (cs.take i ++ prep :: cs.drop i)) =
      (("ATTRIB" == "ART" && pr == "quantkein") ||
        has_quantkein_list (cs.take i ++ prep :: cs.drop i)) from rfl]
    rw [show (prep :: cs.drop i) = [prep] ++ cs.drop i from rfl, hql_append, hql_append]
    simp [has_quantkein_list, htake, hdrop, hprep]

/-! ## Claim C2 -/

/-- C2 counterexample: the claim states a nonzero count never produces the
quantkein modifier, but lexicalize_exercises at the nonzero count two builds a
patient phrase that carries it. -/
theorem C2_counterexample :
    patiens_has_quantkein (lexicalize_exercises 2 buchD "beinhalten") = true := rfl

/-- C2 amended: lexicalize_codeexamples puts the quantkein modifier into the
patient phrase exactly at count zero (given that a supplied language tree is
itself free of it); lexicalize_exercises puts it there exactly when the count
differs from one, so count zero gets it but so does every count above one. -/
theorem C2_quantkein_split (ex : Int) (t : Diamond) (plang : Option Diamond)
    (lexeme : String)
    (hl : lexeme = "beinhalten" ∨ lexeme = "enthalten")
    (hp : ∀ p, plang = some p → has_quantkein p = false) :
    (ex = 0 → patiens_has_quantkein (lexicalize_codeexamples ex t plang lexeme) = true) ∧
    (ex ≠ 0 → patiens_has_quantkein (lexicalize_codeexamples ex t plang lexeme) = false) ∧
    (ex ≠ 1 → patiens_has_quantkein (lexicalize_exercises ex t lexeme) = true) ∧
    (ex = 1 → patiens_has_quantkein (lexicalize_exercises ex t lexeme) = false) := by
  refine ⟨fun hex => ?_, fun hex => ?_, fun hex => ?_, fun hex => ?_⟩
  · subst hex
    rcases hl with hl | hl <;> subst hl <;>
      simp [lexicalize_codeexamples, gen_num_str, patiens_has_quantkein, patiens_of,
        has_quantkein, has_quantkein_list, gen_art, gen_tempus, change_mode]
  · rcases plang with - | p
    · rcases hl with hl | hl <;> subst hl <;>
        simp [lexicalize_codeexamples, hex, gen_num_str, patiens_has_quantkein,
          patiens_of, has_quantkein, has_quantkein_list, gen_tempus, change_mode]
    · have hmod := has_quantkein_modifier p (gen_prep "in" "zusammenhang") 1
        (hp p rfl) rfl
      simp only [change_mode, has_quantkein, Bool.or_eq_false_iff] at hmod
      replace hmod := hmod.2
      rcases hl with hl | hl <;> subst hl <;>
        simp [lexicalize_codeexamples, hex, gen_num_str, patiens_has_quantkein,
          patiens_of, has_quantkein, has_quantkein_list, gen_tempus, change_mode, hmod]
  · rcases hl with hl | hl <;> subst hl <;>
      simp [lexicalize_exercises, hex, gen_num_str, patiens_has_quantkein,
        patiens_of, has_quantkein, has_quantkein_list, gen_art, gen_tempus, change_mode]
  · subst hex
    rcases hl with hl | hl <;> subst hl <;>
      simp [lexicalize_exercises, gen_num_str, patiens_has_quantkein,
        patiens_of, has_quantkein, has_quantkein_list, gen_tempus, change_mode]

/-- Closed witness for C2 at count zero for the code examples and count zero
for the exercises. -/
theorem C2_witness :
    patiens_has_quantkein (lexicalize_codeexamples 0 buchD none "enthalten") = true ∧
    patiens_has_quantkein (lexicalize_exercises 0 buchD "enthalten") = true :=
  ⟨(C2_quantkein_split 0 buchD none "enthalten" (Or.inr rfl)
      (fun p h => by cases h)).1 rfl,
   (C2_quantkein_split 0 buchD none "enthalten" (Or.inr rfl)
      (fun p h => by cases h)).2.2.1 (by decide)⟩

/-! ## Claim C3 -/

/-- C3 counterexample: the claim states a count of zero is accepted and yields
a singular node, but gen_num rejects zero with its count assertion. -/
theorem C3_counterexample : gen_num_int 0 = .error "count has to be >= 1" := rfl

/-- C3 amended: gen_num maps the count one to the singular node and every
count above one to the plural node, and rejects every count below one through
its assertion instead of accepting it. -/
theorem C3_gen_num_normalization (n : Int) :
    (n ≤ 0 → gen_num_int n = .error "count has to be >= 1") ∧
    (n = 1 → gen_num_int n = .ok (create_diamond "NUM" "" "sing" [])) ∧
    (1 < n → gen_num_int n = .ok (create_diamond "NUM" "" "plur" [])) := by
  refine ⟨fun h => ?_, fun h => ?_, fun h => ?_⟩
  · unfold gen_num_int
    rw [if_neg (by omega)]
  · subst h
    rfl
  · unfold gen_num_int
    rw [if_pos (by omega), if_neg (by omega)]
    rfl

/-- Closed witness for C3 at the counts zero, one and two. -/
theorem C3_witness :
    gen_num_int 0 = .error "count has to be >= 1" ∧
    gen_num_int 1 = .ok (create_diamond "NUM" "" "sing" []) ∧
    gen_num_int 2 = .ok (create_diamond "NUM" "" "plur" []) :=
  ⟨(C3_gen_num_normalization 0).1 (by omega),
   (C3_gen_num_normalization 1).2.1 rfl,
   (C3_gen_num_normalization 2).2.2 (by omega)⟩

/-! ## Claim C5 -/

/-- C5 counterexample: the claim states an unsupported lexeme fails through a
precondition assertion and never yields an absent result, but lexicalize_pages
with the unsupported lexeme foo returns the absent None result. -/
theorem C5_counterexample :
    lexicalize_pages "600" buchD "foo" pick_head = .ok none := rfl

/-- C5 amended: lexicalize_pages carries no lexeme assertion: for every lexeme
outside umfang, umfassen, länge and random it relabels the title argument and
then falls off the end of the function, returning the absent None result
instead of failing. -/
theorem C5_pages_unsupported_lexeme (pages : String) (t : Diamond)
    (lexeme : String) (pick : List String → String)
    (h1 : lexeme ≠ "umfang") (h2 : lexeme ≠ "umfassen") (h3 : lexeme ≠ "länge")
    (h4 : lexeme ≠ "random") :
    lexicalize_pages pages t lexeme pick = .ok none := by
  unfold lexicalize_pages
  simp [gen_num_str, h1, h2, h3, h4]

/-- Closed witness for C5 at the unsupported lexeme foo. -/
theorem C5_witness :
    lexicalize_pages "600" buchD "foo" pick_head = .ok none :=
  C5_pages_unsupported_lexeme "600" buchD "foo" pick_head
    (by decide) (by decide) (by decide) (by decide)

/-! ## Success lemmas for the keyword phrase builders -/

theorem gen_num_int_ok (n : Int) (h : 0 < n) : ∃ d, gen_num_int n = .ok d := by
  unfold gen_num_int
  rw [if_pos h]
  by_cases h1 : n = 1 <;> simp [h1, gen_num_str]

theorem gen_abstract_keywords_ok (n : Int) (h : 0 < n) :
    ∃ d, gen_abstract_keywords n = .ok d := by
  obtain ⟨d, hd⟩ := gen_num_int_ok n h
  unfold gen_abstract_keywords
  rw [hd]
  exact ⟨_, rfl⟩

theorem gen_keyword_ok (kw mode : String) :
    gen_keyword kw mode = .ok (create_diamond mode "sorte" (replace_blanks kw)
      [create_diamond "NUM" "" "sing" []]) := rfl

theorem gen_keywords_ok (kws : List String) (mode : String) (h : kws ≠ []) :
    ∃ d, gen_keywords kws mode = .ok d := by
  have hlen : 0 < (kws.length : Int) := by
    cases kws with
    | nil => exact absurd rfl h
    | cons a l => simp
  obtain ⟨kd, hkd⟩ := gen_abstract_keywords_ok (kws.length : Int) hlen
  unfold gen_keywords
  rw [hkd]
  rcases kws with - | ⟨kw1, - | ⟨kw2, rest⟩⟩
  · exact absurd rfl h
  · exact ⟨_, rfl⟩
  · have hmap := mapM_ok_of_ok (fun kw => gen_keyword kw mode)
      (fun kw => create_diamond mode "sorte" (replace_blanks kw)
        [create_diamond "NUM" "" "sing" []])
      (fun kw => gen_keyword_ok kw mode) (kw1 :: kw2 :: rest)
    obtain ⟨ed, hed⟩ := ge_some ((kw1 :: kw2 :: rest).map
      (fun kw => create_diamond mode "sorte" (replace_blanks kw)
        [create_diamond "NUM" "" "sing" []])) mode (by simp)
    simp only [hmap, hed]
    exact ⟨_, rfl⟩

theorem keywords_clause_ok (temp agens patiens : Diamond) (lexeme : String) :
    ∃ v, keywords_clause temp agens patiens lexeme = .ok v := by
  unfold keywords_clause
  split
  · exact ⟨_, rfl⟩
  · split
    · exact ⟨_, rfl⟩
    · split
      · exact ⟨_, rfl⟩
      · exact ⟨_, rfl⟩

theorem keywords_patiens_ok (kws : List String) (realize : String)
    (hr : realize = "abstract" ∨ realize = "complete") (hk : kws ≠ []) :
    ∃ pd, (if realize = "abstract" then gen_abstract_keywords (kws.length : Int)
      else gen_keywords kws "N") = .ok pd := by
  have hlen : 0 < (kws.length : Int) := by
    cases kws with
    | nil => exact absurd rfl hk
    | cons a l => simp
  rcases hr with hr | hr <;> subst hr
  · rw [if_pos rfl]
    exact gen_abstract_keywords_ok _ hlen
  · rw [if_neg (by decide)]
    exact gen_keywords_ok kws "N" hk

/-! ## Claim C8 -/

/-- C8 counterexample: the claim states supplying both a title and authors
fails, but the call succeeds (the assertion only requires at least one of
them). -/
theorem C8_counterexample :
    opt_result_ok (lexicalize_keywords ["k"] (some buchD) (some kayD)
      "abstract" "behandeln") = true := rfl

/-- C8 amended: lexicalize_keywords requires at least one of the lexicalized
title and the lexicalized authors: with neither it fails with the precondition
violation, while with both supplied it succeeds. -/
theorem C8_keywords_argument_bearer (kws : List String) (t a : Diamond)
    (realize lexeme : String)
    (hr : realize = "abstract" ∨ realize = "complete") (hk : kws ≠ []) :
    lexicalize_keywords kws none none realize lexeme =
      .error "keywords need a lexicalized title or authors to be realized" ∧
    ∃ v, lexicalize_keywords kws (some t) (some a) realize lexeme = .ok v := by
  obtain ⟨pd, hpd⟩ := keywords_patiens_ok kws realize hr hk
  constructor
  · unfold lexicalize_keywords
    rw [if_pos hr]
    simp only [hpd]
  · unfold lexicalize_keywords
    rw [if_pos hr]
    simp only [hpd]
    exact keywords_clause_ok _ _ _ lexeme

/-- Closed witness for C8 with one keyword, failing with no argument bearer
and succeeding with both. -/
theorem C8_witness :
    lexicalize_keywords ["k"] none none "abstract" "behandeln" =
      .error "keywords need a lexicalized title or authors to be realized" ∧
    ∃ v, lexicalize_keywords ["k"] (some buchD) (some kayD) "abstract" "behandeln" = .ok v :=
  ⟨(C8_keywords_argument_bearer ["k"] buchD kayD "abstract" "behandeln"
      (Or.inl rfl) (by decide)).1,
   (C8_keywords_argument_bearer ["k"] buchD kayD "abstract" "behandeln"
      (Or.inl rfl) (by decide)).2⟩

/-! ## Claim C9 -/

/-- C9: when both a lexicalized title and lexicalized authors are supplied the
title takes precedence: the result does not depend on the authors argument at
all, and in the plain clause shapes the agens child of the produced clause is
exactly the title relabeled to AGENS; likewise for lexicalize_plang in
complete mode. -/
theorem C9_title_precedence (kws : List String) (t a : Diamond)
    (realize lexeme p : String) :
    (lexicalize_keywords kws (some t) (some a) realize lexeme =
      lexicalize_keywords kws (some t) none realize lexeme) ∧
    (lexicalize_plang p (some t) (some a) realize =
      lexicalize_plang p (some t) none realize) ∧
    ((realize = "abstract" ∨ realize = "complete") → kws ≠ [] →
      (lexeme = "behandeln" ∨ lexeme = "beschreiben") →
      ∃ pat, lexicalize_keywords kws (some t) (some a) realize lexeme =
        .ok (some (create_diamond "" "handlung" lexeme
          [gen_tempus "präs", change_mode t "AGENS", pat]))) ∧
    (∀ pat, gen_plang p "PATIENS" = .ok pat →
      lexicalize_plang p (some t) (some a) "complete" =
        .ok (some (create_diamond "" "handlung" "verwenden"
          [gen_tempus "präs", change_mode t "AGENS", pat]))) := by
  refine ⟨rfl, rfl, ?_, ?_⟩
  · intro hr hk hl
    obtain ⟨pd, hpd⟩ := keywords_patiens_ok kws realize hr hk
    unfold lexicalize_keywords
    rw [if_pos hr]
    simp only [hpd]
    unfold keywords_clause
    rw [if_pos hl]
    exact ⟨change_mode pd "PATIENS", rfl⟩
  · intro pat hpat
    unfold lexicalize_plang
    simp only [hpat]
    rfl

/-- Closed witness for C9: with both the book tree and an author tree given,
the keywords clause and the programming language clause embed the title as the
agens and ignore the authors. -/
theorem C9_witness :
    (lexicalize_keywords ["k"] (some buchD) (some kayD) "abstract" "behandeln" =
      lexicalize_keywords ["k"] (some buchD) none "abstract" "behandeln") ∧
    (∃ pat, lexicalize_keywords ["k"] (some buchD) (some kayD) "abstract" "behandeln" =
      .ok (some (create_diamond "" "handlung" "behandeln"
        [gen_tempus "präs", change_mode buchD "AGENS", pat]))) ∧
    lexicalize_plang "[Ada]" (some buchD) (some kayD) "complete" =
      .ok (some (create_diamond "" "handlung" "verwenden"
        [gen_tempus "präs", change_mode buchD "AGENS",
         create_diamond "PATIENS" "art" "Programmiersprache"
           [create_diamond "NUM" "" "sing" [], gen_art "def",
            create_diamond "NOMERG" "sorte" "Ada"
              [create_diamond "NUM" "" "sing" []]]])) :=
  ⟨(C9_title_precedence ["k"] buchD kayD "abstract" "behandeln" "[Ada]").1,
   (C9_title_precedence ["k"] buchD kayD "abstract" "behandeln" "[Ada]").2.2.1
     (Or.inl rfl) (by decide) (Or.inl rfl),
   (C9_title_precedence ["k"] buchD kayD "abstract" "behandeln" "[Ada]").2.2.2
     _ rfl⟩

/-! ## Claim C10 -/

/-- C10: gen_personal_pronoun coerces the gender to fem whenever the count is
above one or the gender string is empty, whatever gender was requested; hence
pronoun-mode lexicalize_titles for two or more books builds a plural pronoun
with the feminine gender marker although it requests neuter. -/
theorem C10_personal_pronoun_fem (count : Int) (gender : String) (person : Int)
    (mode : String) (bt : List String) (pick : List String → String) :
    ((1 < count ∨ gender = "") →
      gen_personal_pronoun count gender person mode =
        gen_pronoun person "perspro" "fem"
          (if count = 1 then "sing" else "plur") mode) ∧
    (1 < bt.length →
      lexicalize_titles bt none "pronoun" none pick =
        .ok (create_diamond "" "sem-obj" ""
          [create_diamond "PERS" "" "3te" [], create_diamond "PRO" "" "perspro" [],
           create_diamond "GEN" "" "fem" [], create_diamond "NUM" "" "plur" []])) := by
  constructor
  · intro h
    unfold gen_personal_pronoun
    rw [if_pos h]
  · intro h
    have h1 : (1 : Int) < (bt.length : Int) := by exact_mod_cast h
    unfold lexicalize_titles
    simp only [String.reduceEq, or_false, false_or, or_true, true_or, if_true,
      if_false, reduceIte, reduceCtorEq]
    unfold gen_personal_pronoun
    rw [if_pos (Or.inl h1), if_neg (by omega)]
    rfl

/-- Closed witness for C10 at count two and two book titles. -/
theorem C10_witness :
    gen_personal_pronoun 2 "neut" 3 "" =
      gen_pronoun 3 "perspro" "fem" (if (2 : Int) = 1 then "sing" else "plur") "" ∧
    lexicalize_titles ["t1", "t2"] none "pronoun" none pick_head =
      .ok (create_diamond "" "sem-obj" ""
        [create_diamond "PERS" "" "3te" [], create_diamond "PRO" "" "perspro" [],
         create_diamond "GEN" "" "fem" [], create_diamond "NUM" "" "plur" []]) :=
  ⟨(C10_personal_pronoun_fem 2 "neut" 3 "" ["t1", "t2"] pick_head).1
      (Or.inl (by decide)),
   (C10_personal_pronoun_fem 2 "neut" 3 "" ["t1", "t2"] pick_head).2 (by decide)⟩

/-! ## Lemmas about mode-suffix propagation and author counting -/

theorem ams_aux_prop (t : String) (c : Nat) (d : Diamond) :
    ((add_mode_suffix_aux t c d).1).prop = d.prop := by
  cases d with
  | mk m n p cs => simp [add_mode_suffix_aux]

theorem ams_prop (d : Diamond) (t : String) :
    (add_mode_suffix d t).prop = d.prop := ams_aux_prop t 0 d

theorem ams_aux_mode (t : String) (c : Nat) (d : Diamond) :
    ((add_mode_suffix_aux t c d).1).mode =
      if d.mode = t then d.mode ++ toString (c + 1) else d.mode := by
  cases d with
  | mk m n p cs =>
    by_cases h : m = t <;> simp [add_mode_suffix_aux, h]

theorem gnn_mode (gs : List String) (d : Diamond)
    (h : gen_nested_given_names gs = some d) : d.mode = "N1" := by
  match gs with
  | [] => simp [gen_nested_given_names] at h
  | g :: rest =>
    simp only [gen_nested_given_names] at h
    cases hdl : gen_nested_given_names (g :: rest).dropLast with
    | none => rw [hdl] at h; cases h; rfl
    | some nested => rw [hdl] at h; cases h; rfl

theorem gen_abstract_autor_plur (n : Int) (h : 1 < n) :
    gen_abstract_autor n = .ok (Diamond.mk "" "bel-phys-körper" "Autor"
      [gen_art "def", gen_gender "mask", Diamond.mk "NUM" "" "plur" []]) := by
  unfold gen_abstract_autor gen_num_int
  rw [if_pos (by omega), if_neg (by omega)]
  rfl

theorem gen_abstract_autor_sing (n : Int) (h : n = 1) :
    gen_abstract_autor n = .ok (Diamond.mk "" "bel-phys-körper" "Autor"
      [gen_art "def", gen_gender "mask", Diamond.mk "NUM" "" "sing" []]) := by
  subst h; rfl

/-- A lexicalized-authors tree built from more than one author is classified
as plural by the author counting helper. -/
theorem sop_authors_plur (al : List String) (rmode : String) (A : Diamond)
    (hlen : 1 < al.length) (hA : lexicalize_authors al rmode = .ok A) :
    __sing_or_plur A = "plur" := by
  by_cases h1 : rmode = "abstract"
  · subst h1
    unfold lexicalize_authors at hA
    rw [if_pos (by simp), if_pos rfl] at hA
    rw [gen_abstract_autor_plur (al.length : Int) (by exact_mod_cast hlen)] at hA
    cases hA
    rfl
  by_cases h2 : rmode = "lastnames"
  · subst h2
    unfold lexicalize_authors at hA
    rw [if_pos (by simp)] at hA
    rw [if_neg (by decide), if_pos rfl] at hA
    cases hmap : al.mapM gen_lastname_only with
    | error e => simp only [hmap] at hA; exact Except.noConfusion hA
    | ok ds =>
      have hds : 2 ≤ ds.length := by
        rw [mapM_length gen_lastname_only al ds hmap]
        omega
      obtain ⟨k, hk, -, -, hp⟩ := ge_shape ds "NP" hds
      simp only [hmap, hk] at hA
      cases hA
      unfold __sing_or_plur
      rw [if_pos (by rw [ams_prop, ams_prop]; exact hp)]
  by_cases h3 : rmode = "complete"
  · subst h3
    unfold lexicalize_authors at hA
    rw [if_pos (by simp)] at hA
    rw [if_neg (by decide), if_neg (by decide)] at hA
    cases hmap : al.mapM gen_complete_name with
    | error e => simp only [hmap] at hA; exact Except.noConfusion hA
    | ok ds =>
      have hds : 2 ≤ ds.length := by
        rw [mapM_length gen_complete_name al ds hmap]
        omega
      obtain ⟨k, hk, -, -, hp⟩ := ge_shape ds "NP" hds
      simp only [hmap, hk] at hA
      cases hA
      unfold __sing_or_plur
      rw [if_pos (by rw [ams_prop, ams_prop]; exact hp)]
  · exfalso
    unfold lexicalize_authors at hA
    rw [if_neg (by simp [h1, h2, h3])] at hA
    exact Except.noConfusion hA

/-- A lexicalized-authors tree built from exactly one author is classified as
singular by the author counting helper, provided its lexical anchor is not the
conjunction lexeme itself. -/
theorem sop_authors_sing (name : String) (rmode : String) (A : Diamond)
    (hA : lexicalize_authors [name] rmode = .ok A) (hprop : A.prop ≠ "und") :
    __sing_or_plur A = "sing" := by
  by_cases h1 : rmode = "abstract"
  · subst h1
    unfold lexicalize_authors at hA
    rw [if_pos (by simp), if_pos rfl] at hA
    rw [gen_abstract_autor_sing _ (by simp)] at hA
    cases hA
    rfl
  by_cases h2 : rmode = "lastnames"
  · subst h2
    unfold lexicalize_authors at hA
    rw [if_pos (by simp)] at hA
    rw [if_neg (by decide), if_pos rfl] at hA
    cases hmap : [name].mapM gen_lastname_only with
    | error e => simp only [hmap] at hA; exact Except.noConfusion hA
    | ok ds =>
      obtain ⟨d, hd, rfl⟩ := mapM_singleton gen_lastname_only name ds hmap
      unfold gen_lastname_only at hd
      cases hsp : __split_name name with
      | error e => rw [hsp] at hd; exact Except.noConfusion hd
      | ok gl =>
        rw [hsp] at hd
        cases hd
        simp only [hmap] at hA
        rw [show gen_enumeration [create_diamond "NP" "nachname" gl.2 []] "NP" =
          some (create_diamond "NP" "nachname" gl.2 []) by simp [gen_enumeration]] at hA
        cases hA
        unfold __sing_or_plur
        rw [if_neg hprop]
        rfl
  by_cases h3 : rmode = "complete"
  · subst h3
    unfold lexicalize_authors at hA
    rw [if_pos (by simp)] at hA
    rw [if_neg (by decide), if_neg (by decide)] at hA
    cases hmap : [name].mapM gen_complete_name with
    | error e => simp only [hmap] at hA; exact Except.noConfusion hA
    | ok ds =>
      obtain ⟨d, hd, rfl⟩ := mapM_singleton gen_complete_name name ds hmap
      unfold gen_complete_name at hd
      cases hsp : __split_name name with
      | error e => rw [hsp] at hd; exact Except.noConfusion hd
      | ok gl =>
        simp only [hsp] at hd
        cases hg : gen_nested_given_names gl.1 with
        | none =>
          rw [hg] at hd
          cases hd
          simp only [hmap] at hA
          rw [show gen_enumeration [create_diamond "NP" "nachname" gl.2 []] "NP" =
            some (create_diamond "NP" "nachname" gl.2 []) by simp [gen_enumeration]] at hA
          cases hA
          unfold __sing_or_plur
          rw [if_neg hprop]
          rfl
        | some gnd =>
          rw [hg] at hd
          cases hd
          simp only [hmap] at hA
          rw [show gen_enumeration [create_diamond "NP" "nachname" gl.2 [gnd]] "NP" =
            some (create_diamond "NP" "nachname" gl.2 [gnd]) by simp [gen_enumeration]] at hA
          cases hA
          have hX : ((add_mode_suffix_aux "NP" 1 gnd).1).mode = "N1" := by
            rw [ams_aux_mode, gnn_mode gl.1 gnd hg]
            simp
          have hgmode : ((add_mode_suffix_aux "N" 0
              (add_mode_suffix_aux "NP" 1 gnd).1).1).mode = "N1" := by
            rw [ams_aux_mode, hX]
            simp
          have hnone : get_child_by_key (add_mode_suffix (add_mode_suffix
              (create_diamond "NP" "nachname" gl.2 [gnd]) "NP") "N") "02__NUM" = none := by
            show get_child_by_key (Diamond.mk "NP1" "nachname" gl.2
              [(add_mode_suffix_aux "N" 0 (add_mode_suffix_aux "NP" 1 gnd).1).1])
              "02__NUM" = none
            unfold get_child_by_key
            simp [child_key, zfill2, hgmode]
            decide
          unfold __sing_or_plur
          rw [if_neg hprop, hnone]
  · exfalso
    unfold lexicalize_authors at hA
    rw [if_neg (by simp [h1, h2, h3])] at hA
    exact Except.noConfusion hA

theorem gen_abstract_title_ok (n : Int) (h : 0 < n) :
    ∃ d, gen_abstract_title n = .ok d := by
  obtain ⟨num, hnum⟩ := gen_num_int_ok n h
  unfold gen_abstract_title
  rw [hnum]
  exact ⟨_, rfl⟩

theorem remove_article_no_art (d : Diamond) :
    ∀ c ∈ (remove_article_children d).children, ¬ c.mode = "ART" := by
  intro c hc
  unfold remove_article_children at hc
  simp only [Diamond.children_mk, List.mem_filter, decide_not] at hc
  have := hc.2
  simpa using this

/-- The possessive attachment path of lexicalize_titles, expressed through the
author counting helper: a plural classification fails with the precondition
message, a singular one succeeds and the article children are stripped. -/
theorem titles_possessive_spec (bt : List String) (A : Diamond)
    (realize : String) (pick : List String → String) (hbt : bt ≠ [])
    (hreal : realize = "abstract" ∨ realize = "complete") :
    (__sing_or_plur A ≠ "sing" →
      lexicalize_titles bt (some A) realize (some "possessive") pick =
        .error "cant realize possesive form with more than one author") ∧
    (__sing_or_plur A = "sing" →
      ∃ r, lexicalize_titles bt (some A) realize (some "possessive") pick = .ok r ∧
        ∀ c ∈ r.children, ¬ c.mode = "ART") := by
  rcases hreal with hr | hr <;> subst hr
  · have hlen : 0 < (bt.length : Int) := by
      cases bt with
      | nil => exact absurd rfl hbt
      | cons a l => simp
    obtain ⟨T, hT⟩ := gen_abstract_title_ok (bt.length : Int) hlen
    constructor
    · intro hsop
      unfold lexicalize_titles
      rw [if_pos (by simp), if_pos (by simp)]
      simp only [String.reduceEq, reduceIte, hT, reduceCtorEq, Option.some.injEq,
        if_neg hsop]
    · intro hsop
      unfold lexicalize_titles
      rw [if_pos (by simp), if_pos (by simp)]
      simp only [String.reduceEq, reduceIte, hT, reduceCtorEq, Option.some.injEq, hsop]
      exact ⟨_, rfl, remove_article_no_art _⟩
  · obtain ⟨E, hE⟩ := ge_some (bt.map gen_title) "NP" (by simpa using hbt)
    constructor
    · intro hsop
      unfold lexicalize_titles
      rw [if_pos (by simp), if_pos (by simp)]
      simp only [String.reduceEq, reduceIte, hE, reduceCtorEq, Option.some.injEq,
        if_neg hsop]
    · intro hsop
      unfold lexicalize_titles
      rw [if_pos (by simp), if_pos (by simp)]
      simp only [String.reduceEq, reduceIte, hE, reduceCtorEq, Option.some.injEq, hsop]
      exact ⟨_, rfl, remove_article_no_art _⟩

/-! ## Claim C4 -/

/-- C4 counterexample: a single author whose surname is the literal string und
is misclassified as several authors by the conjunction test of __sing_or_plur,
so the possessive attachment fails although exactly one author is described. -/
theorem C4_counterexample :
    lexicalize_authors ["Ada und"] "lastnames" = .ok und_author ∧
    lexicalize_titles ["b"] (some und_author) "abstract" (some "possessive") pick_head =
      .error "cant realize possesive form with more than one author" :=
  ⟨rfl, rfl⟩

/-- C4 amended: possessive title plus author attachment fails with the
precondition violation whenever the lexicalized authors tree describes more
than one author; with exactly one author it succeeds and strips every article
child from the title tree, provided the single-author tree does not carry the
conjunction lexeme und as its anchor (a surname spelled und is misclassified
as plural). -/
theorem C4_titles_possessive (bt al : List String) (rmode realize : String)
    (A : Diamond) (pick : List String → String)
    (hbt : bt ≠ []) (hreal : realize = "abstract" ∨ realize = "complete")
    (hA : lexicalize_authors al rmode = .ok A) :
    (1 < al.length →
      lexicalize_titles bt (some A) realize (some "possessive") pick =
        .error "cant realize possesive form with more than one author") ∧
    (al.length = 1 → A.prop ≠ "und" →
      ∃ r, lexicalize_titles bt (some A) realize (some "possessive") pick = .ok r ∧
        ∀ c ∈ r.children, ¬ c.mode = "ART") := by
  constructor
  · intro hlen
    have hplur := sop_authors_plur al rmode A hlen hA
    exact (titles_possessive_spec bt A realize pick hbt hreal).1 (by rw [hplur]; decide)
  · intro hlen hprop
    rcases al with - | ⟨name, - | ⟨a2, rest⟩⟩
    · simp at hlen
    · have hsing := sop_authors_sing name rmode A hA hprop
      exact (titles_possessive_spec bt A realize pick hbt hreal).2 hsing
    · simp at hlen

/-- Closed witness for C4: two lastname authors fail the possessive form, one
lastname author succeeds with no article child left. -/
theorem C4_witness :
    lexicalize_titles ["b"] (some kay_hopcroft) "abstract" (some "possessive") pick_head =
      .error "cant realize possesive form with more than one author" ∧
    ∃ r, lexicalize_titles ["b"] (some kay_author) "abstract" (some "possessive") pick_head =
      .ok r ∧ ∀ c ∈ r.children, ¬ c.mode = "ART" :=
  ⟨(C4_titles_possessive ["b"] ["Alan Kay", "John Hopcroft"] "lastnames" "abstract"
      kay_hopcroft pick_head (by decide) (Or.inl rfl) rfl).1 (by decide),
   (C4_titles_possessive ["b"] ["Alan Kay"] "lastnames" "abstract" kay_author pick_head
      (by decide) (Or.inl rfl) rfl).2 rfl (by decide)⟩
